import Mathlib

/-!
Shallow embedding of the `dgutils` command-dispatch library
(`commands.go`, `errors.go` and the permissions helper file).

Conventions of the embedding:
* Go maps are embedded as total functions returning the Go zero value
  (`Option` entries for `map[string]Cmd`, `""` for `map[string]string`).
* Go strings are `String`; string helpers (`strings.Split`, `strings.Replace`,
  prefix tests, `fmt.Sscanf "%d"` scanning) are re-implemented structurally over
  `List Char` so that every definition reduces in the kernel.
* The discordgo session is a record of lookup oracles (`none` models a failed
  lookup, i.e. a Go call that returned an error or `nil`); the library treats
  the session purely as an external directory, so this captures everything the
  code observes.
* Go panics are explicit outcome constructors (`BodyResult.panicBeforeCall`,
  `ConvResult.panicked`, `FnOutcome.panics`); the `defer`/`recover` wrapper of
  `FnCmd.Invoke` is the total function `Invoke` mapping every outcome, panics
  included, to an `Option CmdErr` result.
* `encoding/json` decoding (the `default` branch of `tryConvert`) is modelled
  for the scalar kinds reachable through a validated command: integer targets
  parse a JSON integer literal and fail on overflow (mirroring
  `json.UnmarshalTypeError` for numbers that overflow the target), boolean
  targets accept exactly `true`/`false`.  Aggregate targets are never produced
  by `Command` for scalar positions and are modelled as decode failures.
-/

namespace Dgutils

/-- A discordgo user, reduced to the identifier the library consults. -/
structure User where
  id : String
deriving DecidableEq

/-- A discordgo channel, reduced to its identifier. -/
structure Channel where
  id : String
deriving DecidableEq

/-- A discordgo role: the library only reads its permission bits. -/
structure Role where
  Permissions : Int
deriving DecidableEq

/-- A guild member: the library only reads the member's role identifiers. -/
structure Member where
  roles : List String
deriving DecidableEq

/-- A guild: the library only reads the owner identifier. -/
structure Guild where
  OwnerID : String
deriving DecidableEq

/--
The discordgo session as consumed by this library: the bot's own identity
plus the entity / permission lookup oracles.  `none` models a lookup that
returned an error or no entity (the code discards the error values).
-/
structure Session where
  selfId : String
  users : String → Option User
  channels : String → Option Channel
  guilds : String → Option Guild
  stateMember : String → String → Option Member
  guildMember : String → String → Option Member
  stateRole : String → String → Option Role

/-- The fields of `discordgo.MessageCreate` the library reads. -/
structure Message where
  authorId : String
  guildId : String
  content : String

/-! ## Reflection kinds and types (`reflect.Kind`, `reflect.Type`) -/

/-- The `reflect.Kind` classification, restricted to the kinds the library's
type universe can produce. -/
inductive Kind where
  | invalidK | uintptrK | arrayK | chanK | funcK | interfaceK | mapK
  | structK | unsafePointerK | sliceK | ptrK | stringK | boolK | intK
deriving DecidableEq

/-- What a supported pointer parameter points to. -/
inductive PtrElem where
  | session
  | messageCreate
  | user
  | channel
  | other (name : String)
deriving DecidableEq

/-- Integer bit widths of the Go integer kinds (`int`/`uint` are 64-bit). -/
inductive IntWidth where
  | w8 | w16 | w32 | w64
deriving DecidableEq

def IntWidth.bits : IntWidth → Nat
  | .w8 => 8
  | .w16 => 16
  | .w32 => 32
  | .w64 => 64

/-- The Go types a command parameter can mention, as the library sees them
through `reflect`. -/
inductive GoType where
  | stringT
  | boolT
  | intT (signed : Bool) (w : IntWidth)
  | ptrT (elem : PtrElem)
  | slice (elem : GoType)
  | structT | mapT | funcT | interfaceT | uintptrT | arrayT | chanT
  | unsafePointerT | invalidT
deriving DecidableEq

/-- `reflect.Type.Kind()`. -/
def GoType.kind : GoType → Kind
  | .stringT => .stringK
  | .boolT => .boolK
  | .intT _ _ => .intK
  | .ptrT _ => .ptrK
  | .slice _ => .sliceK
  | .structT => .structK
  | .mapT => .mapK
  | .funcT => .funcK
  | .interfaceT => .interfaceK
  | .uintptrT => .uintptrK
  | .arrayT => .arrayK
  | .chanT => .chanK
  | .unsafePointerT => .unsafePointerK
  | .invalidT => .invalidK

/-- How `%s` prints a `reflect.Kind` in the `Command` error messages. -/
def kindName : Kind → String
  | .invalidK => "invalid"
  | .uintptrK => "uintptr"
  | .arrayK => "array"
  | .chanK => "chan"
  | .funcK => "func"
  | .interfaceK => "interface"
  | .mapK => "map"
  | .structK => "struct"
  | .unsafePointerK => "unsafe.Pointer"
  | .sliceK => "slice"
  | .ptrK => "ptr"
  | .stringK => "string"
  | .boolK => "bool"
  | .intK => "int"

/-- The Go type name used in the modelled json overflow message. -/
def typeName : GoType → String
  | .stringT => "string"
  | .boolT => "bool"
  | .intT true .w8 => "int8"
  | .intT true .w16 => "int16"
  | .intT true .w32 => "int32"
  | .intT true .w64 => "int64"
  | .intT false .w8 => "uint8"
  | .intT false .w16 => "uint16"
  | .intT false .w32 => "uint32"
  | .intT false .w64 => "uint64"
  | .ptrT _ => "ptr"
  | .slice _ => "slice"
  | t => kindName t.kind

/-- The `illegalKinds` map of `commands.go`. -/
def illegalKinds : Kind → Bool
  | .invalidK => true
  | .uintptrK => true
  | .arrayK => true
  | .chanK => true
  | .funcK => true
  | .interfaceK => true
  | .mapK => true
  | .structK => true
  | .unsafePointerK => true
  | _ => false

def GoType.isSlice : GoType → Bool
  | .slice _ => true
  | _ => false

/-- How the pointed-to type prints in
`"tryConvert: can't unmarshal pointer to %s"`. -/
def ptrElemName : PtrElem → String
  | .session => "discordgo.Session"
  | .messageCreate => "discordgo.MessageCreate"
  | .user => "discordgo.User"
  | .channel => "discordgo.Channel"
  | .other n => n

/-! ## Structural string helpers (Go `strings` / `fmt` behaviour) -/

/-- Digit-run value, `digitsToNat ['1','2'] = 12`. -/
def digitsToNat (cs : List Char) : Nat :=
  cs.foldl (fun acc c => acc * 10 + (c.toNat - '0'.toNat)) 0

/--
The value left in `id` by `fmt.Sscanf(str, pre ++ "%d>", &id)` with the scan
error discarded: if `str` starts with `pre` and a digit run follows, `%d`
stores that run's value (whether or not the trailing `>` matches, since the
returned error is ignored); in every other case the scan fails before writing
and `id` keeps its zero value.
-/
def scanMentionId (pre str : String) : Nat :=
  if pre.data.isPrefixOf str.data then
    digitsToNat ((str.data.drop pre.data.length).takeWhile Char.isDigit)
  else 0

/-- Whether `str` matches the mention shape `pre` + at least one digit
(the successful case of the `Sscanf` pattern). -/
def mentionMatches (pre str : String) : Bool :=
  pre.data.isPrefixOf str.data &&
    !((str.data.drop pre.data.length).takeWhile Char.isDigit).isEmpty

/-- First index at which `pat` occurs in `l`, if any (Go `strings.Index`). -/
def findSub (pat : List Char) : List Char → Option Nat
  | [] => if pat.isEmpty then some 0 else none
  | c :: t => if pat.isPrefixOf (c :: t) then some 0
              else (findSub pat t).map (· + 1)

/-- `containsSub l pat` is true iff `pat` occurs inside `l` as a
contiguous run. -/
def containsSub (l pat : List Char) : Bool :=
  (findSub pat l).isSome

/-- Go `strings.Replace(s, pat, "", 1)`: delete the first occurrence of
`pat` (an empty `pat` inserts nothing and leaves `s` unchanged). -/
def replaceOnce (s pat : String) : String :=
  if pat = "" then s
  else
    match findSub pat.data s.data with
    | none => s
    | some i => String.mk (s.data.take i ++ s.data.drop (i + pat.data.length))

/-- Go `strings.Split(s, " ")` over the character list. -/
def splitSpaces : List Char → List (List Char)
  | [] => [[]]
  | c :: t =>
    if c = ' ' then [] :: splitSpaces t
    else
      match splitSpaces t with
      | [] => [[c]]
      | w :: ws => (c :: w) :: ws

/-- Go `strings.Split(s, " ")`. -/
def goSplitSpace (s : String) : List String :=
  (splitSpaces s.data).map String.mk

/-! ## Modelled `encoding/json` scalar decoding -/

/-- A JSON integer literal: optional minus sign, digit run, no redundant
leading zero. -/
def parseJsonDigits : List Char → Option Nat
  | [] => none
  | ['0'] => some 0
  | '0' :: _ :: _ => none
  | cs => if cs.all Char.isDigit then some (digitsToNat cs) else none

/-- Parse a token as a JSON integer literal. -/
def parseJsonInt (s : String) : Option Int :=
  match s.data with
  | '-' :: rest => (parseJsonDigits rest).map (fun n => -(n : Int))
  | cs => (parseJsonDigits cs).map (fun n => (n : Int))

/-- Whether `i` fits the integer type of the given signedness and width. -/
def inIntRange (signed : Bool) (w : IntWidth) (i : Int) : Bool :=
  if signed then
    decide (-(2 ^ (w.bits - 1) : Int) ≤ i) && decide (i < (2 ^ (w.bits - 1) : Int))
  else
    decide (0 ≤ i) && decide (i < (2 ^ w.bits : Int))

/-! ## Error model (`errors.go`) -/

/--
The errors `FnCmd.Invoke` can return: `accessDenied` and `argCountMismatch`
are the structs of `errors.go`; `unmarshal` is `UnmarshalError` carrying the
underlying message; `generic` is the `fmt.Errorf` produced by the
`recover()` in `Invoke`.
-/
inductive CmdErr where
  | accessDenied
  | argCountMismatch (expected got : Nat)
  | unmarshal (msg : String)
  | generic (msg : String)
deriving DecidableEq

/-! ## Permission helpers (the copied discordgo FAQ file) -/

/--
Boolean component of `IsOwner`: the guild lookup failing yields
`(false, err)`, and the caller (`CmdPredicate.Validate`) discards the error,
so only this boolean is observable.
-/
def IsOwner (s : Session) (guildID userID : String) : Bool :=
  match s.guilds guildID with
  | none => false
  | some guild => guild.OwnerID == userID

/-- The role loop of `MemberHasPermissions`: a failed role lookup returns
`(false, err)` immediately; a role whose permissions intersect the mask
returns `true` without examining later roles. -/
def rolesHavePermission (s : Session) (guildID : String) (permission : Int) :
    List String → Bool
  | [] => false
  | rid :: rest =>
    match s.stateRole guildID rid with
    | none => false
    | some role =>
      if Int.land role.Permissions permission = 0 then
        rolesHavePermission s guildID permission rest
      else true

/-- Boolean component of `MemberHasPermissions`: fetch the member from the
state cache, fall back to the REST lookup, then scan the member's roles. -/
def MemberHasPermissions (s : Session) (guildID userID : String)
    (permission : Int) : Bool :=
  match s.stateMember guildID userID with
  | some member => rolesHavePermission s guildID permission member.roles
  | none =>
    match s.guildMember guildID userID with
    | some member => rolesHavePermission s guildID permission member.roles
    | none => false

/-- The member record `MemberHasPermissions` ends up scanning, if any. -/
def effectiveMember (s : Session) (guildID userID : String) : Option Member :=
  match s.stateMember guildID userID with
  | some member => some member
  | none => s.guildMember guildID userID

/-! ## Predicates (`CmdPredicate`) -/

/--
`CmdPredicate` of `commands.go`.  The Go custom check also receives the
predicate value itself; since the predicate is fixed at construction time the
embedding curries it away and the custom check observes session and message.
-/
structure CmdPredicate where
  Permissions : Int := 0
  Custom : Option (Session → Message → Bool) := none

/-- Whether a present custom check fires (`p.Custom != nil && p.Custom(...)`). -/
def customDenies (p : CmdPredicate) (s : Session) (m : Message) : Bool :=
  match p.Custom with
  | some f => f s m
  | none => false

/-- `CmdPredicate.Validate` of `commands.go`. -/
def CmdPredicate.Validate (p : CmdPredicate) (s : Session) (m : Message) : Bool :=
  if p.Permissions != 0 &&
      !IsOwner s m.guildId m.authorId &&
      !MemberHasPermissions s m.guildId m.authorId p.Permissions then
    false
  else if customDenies p s m then false
  else true

/-! ## The conversion engine (`tryConvert`) -/

/-- The typed values conversion can produce (`reflect.Value` contents). -/
inductive GoValue where
  | strV (s : String)
  | boolV (b : Bool)
  | intV (i : Int)
  | userV (u : User)
  | channelV (c : Channel)
  | sliceV (vs : List GoValue)

/--
`tryConvert` of `commands.go`.  Returns the converted value or the message
carried by the `UnmarshalError` the code wraps around every failure.  The
`reflect.String` case is the identity; the `reflect.Ptr` case does the
two-phase mention / raw-id resolution with the exact source error strings;
every other kind goes through the modelled json decode.
-/
def tryConvert (s : Session) : GoType → String → Except String GoValue
  | .stringT, str => .ok (.strV str)
  | .ptrT .channel, str =>
    let id := scanMentionId "<#" str
    let chann :=
      match s.channels (Nat.repr id) with
      | none => s.channels str
      | some c => some c
    match chann with
    | none => .error "tryConvert: cannot parse channel"
    | some c => .ok (.channelV c)
  | .ptrT .user, str =>
    let id := scanMentionId "<@!" str
    let user :=
      match s.users (Nat.repr id) with
      | none => s.users str
      | some u => some u
    match user with
    | none => .error "tryConvert: cannot parse user"
    | some u => .ok (.userV u)
  | .ptrT pe, _ =>
    .error ("tryConvert: can't unmarshal pointer to " ++ ptrElemName pe)
  | .boolT, str =>
    if str = "true" then .ok (.boolV true)
    else if str = "false" then .ok (.boolV false)
    else .error ("json: cannot unmarshal " ++ str ++ " into Go value of type bool")
  | .intT signed w, str =>
    match parseJsonInt str with
    | none =>
      .error ("json: cannot unmarshal " ++ str ++ " into Go value of type " ++
        typeName (.intT signed w))
    | some i =>
      if inIntRange signed w i then .ok (.intV i)
      else
        .error ("json: cannot unmarshal number " ++ str ++
          " into Go value of type " ++ typeName (.intT signed w))
  | t, str =>
    .error ("json: cannot unmarshal " ++ str ++ " into Go value of type " ++
      typeName t)

/-! ## Commands (`FnCmd`) and the invocation state machine -/

/-- What the underlying Go function does when finally called: it either
returns normally (its return values, if any, are listed) or panics. -/
inductive FnOutcome where
  | returns (rets : List GoValue)
  | panics (msg : String)

/--
`FnCmd` of `commands.go`.  The wrapped function is embedded as its observable
behaviour on the converted argument values (the fixed session / event
arguments carry no information the behaviour could not already close over);
the error handler is embedded as an optional label, enough to observe which
handler the dispatcher selects.
-/
structure FnCmd where
  Help : String
  fn : List GoValue → FnOutcome
  Predicate : CmdPredicate := {}
  ErrHandler : Option String := none
  paramTypes : List GoType

/-- Outcome of the conversion loop of `Invoke`. -/
inductive ConvResult where
  | ok (vals : List GoValue)
  | err (msg : String)
  | panicked (msg : String)

/-- The inner loop converting the remaining tokens against a slice's element
type, appending in order; the first failure aborts. -/
def convertSeq (s : Session) (elemT : GoType) : List String → Except String (List GoValue)
  | [] => .ok []
  | a :: rest =>
    match tryConvert s elemT a with
    | .error msg => .error msg
    | .ok v =>
      match convertSeq s elemT rest with
      | .error msg => .error msg
      | .ok vs => .ok (v :: vs)

/--
The conversion loop of `Invoke` (`for c := 0; c < len(args); c++`): each
token is converted against the positionally matching parameter type; a slice
parameter greedily consumes every remaining token.  Indexing `paramTypes`
past its end (impossible once the arity check has passed) is the Go panic,
kept as an explicit outcome.
-/
def convertArgs (s : Session) : List GoType → List String → ConvResult
  | _, [] => .ok []
  | [], _ :: _ => .panicked "runtime error: index out of range"
  | .slice elemT :: _, args =>
    match convertSeq s elemT args with
    | .error msg => .err msg
    | .ok vs => .ok [.sliceV vs]
  | p :: ps, a :: rest =>
    match tryConvert s p a with
    | .error msg => .err msg
    | .ok v =>
      match convertArgs s ps rest with
      | .ok vs => .ok (v :: vs)
      | r => r

/--
What the body of `FnCmd.Invoke` (the code protected by the `defer`/`recover`
closure) does: each constructor is one of the mutually exclusive exits.
`panicBeforeCall` is a panic raised before the function call (the
out-of-range index of the `sliceReceiver` test, or the conversion loop);
`callDone msg?` means the function was called and either returned
(`none`) or panicked (`some msg`).
-/
inductive BodyResult where
  | denied
  | arity (expected got : Nat)
  | convErr (msg : String)
  | panicBeforeCall (msg : String)
  | callDone (panicMsg : Option String)

/-- The body of `FnCmd.Invoke`, before the `recover()` normalisation. -/
def invokeBody (cmd : FnCmd) (s : Session) (m : Message) (args : List String) :
    BodyResult :=
  if cmd.Predicate.Validate s m = false then .denied
  else
    let expectLen := cmd.paramTypes.length
    let actualLen := args.length
    match cmd.paramTypes.getLast? with
    | none =>
      -- `cmd.paramTypes[expectLen-1]` with `expectLen = 0` indexes `[-1]`.
      .panicBeforeCall "runtime error: index out of range [-1]"
    | some lastT =>
      let sliceReceiver := lastT.isSlice
      if decide (actualLen < expectLen) ||
          (!sliceReceiver && decide (actualLen > expectLen)) then
        .arity expectLen actualLen
      else
        match convertArgs s cmd.paramTypes args with
        | .err msg => .convErr msg
        | .panicked msg => .panicBeforeCall msg
        | .ok vals =>
          match cmd.fn vals with
          | .returns _ => .callDone none
          | .panics msg => .callDone (some msg)

/--
`FnCmd.Invoke` of `commands.go`: the deferred `recover()` turns every panic
into `fmt.Errorf("Cmd.Invoke: %v", e)`; the other exits return their error
(or `nil` after a normal call, discarding the function's own return values).
-/
def Invoke (cmd : FnCmd) (s : Session) (m : Message) (args : List String) :
    Option CmdErr :=
  match invokeBody cmd s m args with
  | .denied => some .accessDenied
  | .arity expected got => some (.argCountMismatch expected got)
  | .convErr msg => some (.unmarshal msg)
  | .panicBeforeCall msg => some (.generic ("Cmd.Invoke: " ++ msg))
  | .callDone none => none
  | .callDone (some msg) => some (.generic ("Cmd.Invoke: " ++ msg))

/-- Whether `Invoke` reached the `reflect.ValueOf(cmd.fn).Call(vals)` line. -/
def InvokeCalled (cmd : FnCmd) (s : Session) (m : Message) (args : List String) :
    Bool :=
  match invokeBody cmd s m args with
  | .callDone _ => true
  | _ => false

/-! ## The signature validator (`Command`) -/

/--
The parameter loop of `Command` (`for c := 2; c < ttype.NumIn(); c++`):
returns the error message for the first offending parameter, or `none` when
every parameter is accepted.  Mirrors the source, including that the
slice-element rejection prints the *slice's* kind, and that a slice whose
element kind is not in `illegalKinds` (for instance another slice) passes.
-/
def paramsError : List GoType → Option String
  | [] => none
  | p :: ps =>
    if illegalKinds p.kind then
      some ("Command: argument of kind " ++ kindName p.kind ++ " not supported")
    else if p.isSlice then
      if ps ≠ [] then
        some "Command: slice can only be the last argument in a function"
      else
        match p with
        | .slice elemT =>
          if illegalKinds elemT.kind then
            some ("Command: argument of kind " ++ kindName p.kind ++ " not supported")
          else none
        | _ => none
    else paramsError ps

/--
`Command` of `commands.go`, applied to a value already known to be a
function with formal parameter types `ins` (the `reflect.Func` kind test is
the Go-side guarantee that `ins` exists) and behaviour `fnB`.
-/
def Command (fnB : List GoValue → FnOutcome) (ins : List GoType)
    (help : String) (errHandler : Option String) : Except String FnCmd :=
  match ins with
  | [] => .error "Command: not enough arguments"
  | [_] => .error "Command: not enough arguments"
  | first :: snd :: rest =>
    if first ≠ .ptrT .session then
      .error "Command: fn's first argument is not a pointer to a discordgo.Session"
    else if snd ≠ .ptrT .messageCreate then
      .error "Command: fn's second argument is not a pointer to a discordgo.MessageCreate"
    else
      match paramsError rest with
      | some msg => .error msg
      | none =>
        .ok { Help := help, fn := fnB, Predicate := {}, ErrHandler := errHandler,
              paramTypes := rest }

/-! ## The registry (`CmdRegister`) -/

/--
`CmdRegister` of `commands.go`.  The Go maps are total functions returning
the zero value for absent keys (`nil` for commands, `""` for aliases).  The
only `Cmd` implementation in the library is `FnCmd`, so the registry stores
those.
-/
structure CmdRegister where
  Cmds : String → Option FnCmd
  Aliases : String → String

/-- `CmdRegister.Canon`: one-hop alias resolution. -/
def CmdRegister.Canon (reg : CmdRegister) (name : String) : String :=
  let canon := reg.Aliases name
  if canon ≠ "" then canon else name

/-- `CmdRegister.Get`. -/
def CmdRegister.Get (reg : CmdRegister) (name : String) : Option FnCmd :=
  reg.Cmds (reg.Canon name)

/-- `CmdRegister.Add`: the conflict check precedes the map write, so the
error exit performs no mutation. -/
def CmdRegister.Add (reg : CmdRegister) (name : String) (cmd : FnCmd) :
    Except String CmdRegister :=
  match reg.Get name with
  | some _ =>
    .error ("CmdRegister.Add: command " ++ name ++ " already exists in register")
  | none =>
    .ok { reg with Cmds := fun n => if n = name then some cmd else reg.Cmds n }

/-- `CmdRegister.Alias`. -/
def CmdRegister.Alias (reg : CmdRegister) (name dest : String) :
    Except String CmdRegister :=
  match reg.Get dest with
  | none => .error (name ++ " doesn't exist in register")
  | some _ =>
    match reg.Get name with
    | some _ => .error (name ++ " already exists in register")
    | none => .ok { reg with Aliases := fun n => if n = name then dest else reg.Aliases n }

/-! ## The dispatcher (`CmdRegister.Handle`) -/

/-- Observable trace of one `Handle` run. `invoked err routed` records the
error `Invoke` returned and, when a handler was actually called, which
handler received which error. -/
inductive HandleTrace where
  | selfFiltered
  | noPrefix
  | notFound
  | invoked (err : Option CmdErr) (routed : Option (String × CmdErr))
deriving DecidableEq

/-- The handler-routing step of `Handle`: a handler runs only when the
command returned an error and some handler (per-command first, register-wide
otherwise) is present. -/
def routeTrace (err : Option CmdErr) (handler : Option String) :
    Option (String × CmdErr) :=
  match err, handler with
  | some e, some h => some (h, e)
  | _, _ => none

/-- `CmdRegister.Handle` of `commands.go`. -/
def Handle (reg : CmdRegister) (s : Session) (m : Message) (pfx : String)
    (errHandler : Option String) : HandleTrace :=
  if m.authorId == s.selfId then .selfFiltered
  else if pfx.data.isPrefixOf m.content.data then
    let args := goSplitSpace m.content
    let name := replaceOnce (args.headD "") pfx
    match reg.Get name with
    | none => .notFound
    | some cmd =>
      let err := Invoke cmd s m (args.drop 1)
      let handler :=
        match cmd.ErrHandler with
        | some h => some h
        | none => errHandler
      .invoked err (routeTrace err handler)
  else .noPrefix

/-! ## Spec-side characterizations (stated from the spec's words, to be
compared with the source-derived definitions above) -/

/-- The invoking user is the owning identity of the guild context. -/
def ownerSpec (s : Session) (guildID userID : String) : Prop :=
  ∃ g, s.guilds guildID = some g ∧ g.OwnerID = userID

/--
The ordered role scan succeeds: some role's lookup succeeds with
permissions intersecting the mask, and every earlier role's lookup also
succeeded but did not intersect (a failed lookup anywhere earlier would have
ended the check without passing).
-/
def scanFinds (lookup : String → Option Role) (mask : Int)
    (roles : List String) : Prop :=
  ∃ pre rid post, roles = pre ++ rid :: post ∧
    (∀ q ∈ pre, ∃ r, lookup q = some r ∧ Int.land r.Permissions mask = 0) ∧
    (∃ r, lookup rid = some r ∧ Int.land r.Permissions mask ≠ 0)

/--
Legal parameter lists per the amended C3 statement: every kind is outside
the unsupported set, a sequence parameter occurs only in final position, and
a final sequence's element kind is itself outside the unsupported set (the
validator checks the element's *kind* only, so a sequence-of-sequences
element passes).
-/
def legalParamsSpec : List GoType → Bool
  | [] => true
  | [p] =>
    match p with
    | .slice elemT => !illegalKinds elemT.kind
    | _ => !illegalKinds p.kind
  | p :: rest => !illegalKinds p.kind && !p.isSlice && legalParamsSpec rest

/-! ## Shared concrete fixtures for witnesses and counterexamples -/

/-- A command body that ignores its arguments and returns nothing. -/
def fnNoop : List GoValue → FnOutcome := fun _ => .returns []

/-- A session whose every lookup fails. -/
def sessNone : Session :=
  { selfId := "", users := fun _ => none, channels := fun _ => none,
    guilds := fun _ => none, stateMember := fun _ _ => none,
    guildMember := fun _ _ => none, stateRole := fun _ _ => none }

def msgA : Message := { authorId := "alice", guildId := "g", content := "!c" }

/-- A descriptor declaring no parameters beyond the fixed two. -/
def cmdNoParams : FnCmd := { Help := "", fn := fnNoop, paramTypes := [] }

/-- A descriptor whose only parameter is a trailing string sequence. -/
def cmdTrailSeq : FnCmd :=
  { Help := "", fn := fnNoop, paramTypes := [.slice .stringT] }

/-- A descriptor declaring exactly one string parameter. -/
def cmdOneStr : FnCmd := { Help := "", fn := fnNoop, paramTypes := [.stringT] }

/-! ## Helper lemmas -/

theorem scanMentionId_eq_zero (pre str : String)
    (h : mentionMatches pre str = false) : scanMentionId pre str = 0 := by
  unfold mentionMatches at h
  unfold scanMentionId
  by_cases hp : pre.data.isPrefixOf str.data
  · rw [if_pos hp]
    rw [hp] at h
    simp only [Bool.true_and, Bool.not_eq_false'] at h
    rw [List.isEmpty_iff] at h
    rw [h]
    rfl
  · rw [if_neg hp]

theorem customDenies_false_iff (p : CmdPredicate) (s : Session) (m : Message) :
    customDenies p s m = false ↔ ∀ f, p.Custom = some f → f s m = false := by
  unfold customDenies
  cases hc : p.Custom <;> simp

theorem isOwner_iff (s : Session) (g u : String) :
    IsOwner s g u = true ↔ ownerSpec s g u := by
  unfold IsOwner ownerSpec
  cases hg : s.guilds g <;> simp [beq_iff_eq]

theorem rolesHavePermission_iff (s : Session) (g : String) (mask : Int)
    (roles : List String) :
    rolesHavePermission s g mask roles = true ↔
      scanFinds (s.stateRole g) mask roles := by
  induction roles with
  | nil =>
    simp only [rolesHavePermission, scanFinds]
    constructor
    · intro h; cases h
    · rintro ⟨pre, rid, post, heq, -, -⟩
      have hlen := congrArg List.length heq
      simp only [List.length_nil, List.length_append, List.length_cons] at hlen
      exact absurd hlen (by omega)
  | cons a rest ih =>
    cases hl : s.stateRole g a with
    | none =>
      simp only [rolesHavePermission, hl]
      constructor
      · intro h; cases h
      · rintro ⟨pre, rid, post, heq, hpre, r, hr, -⟩
        cases pre with
        | nil =>
          simp only [List.nil_append, List.cons.injEq] at heq
          rw [heq.1] at hl; rw [hl] at hr; cases hr
        | cons q pre' =>
          simp only [List.cons_append, List.cons.injEq] at heq
          obtain ⟨rq, hrq, -⟩ := hpre q (by simp)
          rw [heq.1] at hl; rw [hl] at hrq; cases hrq
    | some role =>
      simp only [rolesHavePermission, hl]
      by_cases hz : Int.land role.Permissions mask = 0
      · rw [if_pos hz, ih]
        constructor
        · rintro ⟨pre, rid, post, heq, hpre, hrid⟩
          refine ⟨a :: pre, rid, post, by rw [heq]; rfl, ?_, hrid⟩
          intro q hq
          rcases List.mem_cons.mp hq with hqa | hqp
          · exact ⟨role, by rw [hqa]; exact hl, hz⟩
          · exact hpre q hqp
        · rintro ⟨pre, rid, post, heq, hpre, r, hr, hnz⟩
          cases pre with
          | nil =>
            simp only [List.nil_append, List.cons.injEq] at heq
            rw [heq.1] at hl; rw [hl] at hr
            cases hr; exact absurd hz hnz
          | cons q pre' =>
            simp only [List.cons_append, List.cons.injEq] at heq
            exact ⟨pre', rid, post, heq.2, fun q' hq' => hpre q' (by simp [hq']),
              r, hr, hnz⟩
      · rw [if_neg hz]
        constructor
        · intro _
          exact ⟨[], a, rest, rfl, by simp, role, hl, hz⟩
        · intro _; rfl

theorem memberHasPermissions_iff (s : Session) (g u : String) (mask : Int) :
    MemberHasPermissions s g u mask = true ↔
      ∃ mem, effectiveMember s g u = some mem ∧
        scanFinds (s.stateRole g) mask mem.roles := by
  unfold MemberHasPermissions effectiveMember
  cases hsm : s.stateMember g u with
  | some mem => simp [rolesHavePermission_iff]
  | none =>
    cases hgm : s.guildMember g u with
    | some mem => simp [rolesHavePermission_iff]
    | none => simp

/-! ## Claim theorems -/

/--
Claim C5: registering a name that already resolves to a descriptor (directly
or through the alias table, since `Get` canonicalizes) returns the conflict
error, and the registry is untouched — the error exit of `Add` precedes the
map write, so the first entry stays retrievable under the same name.
-/
theorem c5_register_conflict (reg : CmdRegister) (name : String)
    (cmd cmd' : FnCmd) (h : reg.Get name = some cmd) :
    reg.Add name cmd' =
      .error ("CmdRegister.Add: command " ++ name ++
        " already exists in register") ∧
    reg.Get name = some cmd := by
  refine ⟨?_, h⟩
  unfold CmdRegister.Add
  rw [h]

/-- A first command stored under the name `ping`. -/
def cmdPingA : FnCmd := { Help := "first", fn := fnNoop, paramTypes := [] }

/-- A second command whose registration under `ping` must conflict. -/
def cmdPingB : FnCmd := { Help := "second", fn := fnNoop, paramTypes := [] }

/-- A registry holding `cmdPingA` under `ping`, with an empty alias table. -/
def regPing : CmdRegister :=
  { Cmds := fun n => if n = "ping" then some cmdPingA else none,
    Aliases := fun _ => "" }

/-- Witness for C5 at a concrete registry. -/
theorem c5_register_conflict_witness :
    regPing.Add "ping" cmdPingB =
      .error "CmdRegister.Add: command ping already exists in register" ∧
    regPing.Get "ping" = some cmdPingA :=
  c5_register_conflict regPing "ping" cmdPingA cmdPingB rfl

/--
Claim C7: every fault the body of `Invoke` raises — the out-of-bounds index
of the trailing-sequence test, a panic inside the conversion loop, or a
panic of the called function itself — is intercepted by the deferred
`recover()` and surfaces as the returned error
`fmt.Errorf("Cmd.Invoke: %v", e)`, never as a fault of Invoke's caller.
-/
theorem c7_no_fault_escape (cmd : FnCmd) (s : Session) (m : Message)
    (args : List String) (msg : String)
    (h : invokeBody cmd s m args = .panicBeforeCall msg ∨
      invokeBody cmd s m args = .callDone (some msg)) :
    Invoke cmd s m args = some (.generic ("Cmd.Invoke: " ++ msg)) := by
  unfold Invoke
  rcases h with h | h <;> rw [h]

/-- Witness for C7: the empty-parameter descriptor panics on the
trailing-sequence test and the panic comes back as a returned error. -/
theorem c7_no_fault_escape_witness :
    Invoke cmdNoParams sessNone msgA [] =
      some (.generic "Cmd.Invoke: runtime error: index out of range [-1]") :=
  c7_no_fault_escape cmdNoParams sessNone msgA []
    "runtime error: index out of range [-1]" (Or.inl rfl)

/--
Claim C8: a descriptor with an empty parameter-specification list can never
run its callable: `Invoke` always returns a non-nil error and never reaches
the call, because when the predicate passes, the trailing-sequence test
indexes `paramTypes[-1]` and the recovered panic becomes a generic error.
-/
theorem c8_no_params_never_runs (cmd : FnCmd) (hp : cmd.paramTypes = [])
    (s : Session) (m : Message) (args : List String) :
    Invoke cmd s m args ≠ none ∧
    InvokeCalled cmd s m args = false ∧
    (cmd.Predicate.Validate s m = true →
      Invoke cmd s m args =
        some (.generic "Cmd.Invoke: runtime error: index out of range [-1]")) := by
  cases hv : cmd.Predicate.Validate s m with
  | false =>
    refine ⟨?_, ?_, fun h => absurd h (by simp)⟩ <;>
      simp [Invoke, InvokeCalled, invokeBody, hv]
  | true =>
    refine ⟨?_, ?_, fun _ => ?_⟩ <;>
      simp [Invoke, InvokeCalled, invokeBody, hv, hp]

/-- Witness for C8 at a concrete descriptor, session and event. -/
theorem c8_no_params_never_runs_witness :
    Invoke cmdNoParams sessNone msgA [] ≠ none ∧
    InvokeCalled cmdNoParams sessNone msgA [] = false ∧
    Invoke cmdNoParams sessNone msgA [] =
      some (.generic "Cmd.Invoke: runtime error: index out of range [-1]") :=
  ⟨(c8_no_params_never_runs cmdNoParams rfl sessNone msgA []).1,
   (c8_no_params_never_runs cmdNoParams rfl sessNone msgA []).2.1,
   (c8_no_params_never_runs cmdNoParams rfl sessNone msgA []).2.2 rfl⟩

/--
Claim C10: for an entity token that does not match the mention syntax, the
`Sscanf` scan leaves the identifier at its zero value and the engine still
performs the by-ID lookup with `"0"` first; if the directory resolves `"0"`,
every non-mention token converts to that entity — the raw-token fallback is
never consulted.
-/
theorem c10_zero_id_lookup (s : Session) (str : String) (u : User)
    (c : Channel) :
    (mentionMatches "<@!" str = false → s.users "0" = some u →
      tryConvert s (.ptrT .user) str = .ok (.userV u)) ∧
    (mentionMatches "<#" str = false → s.channels "0" = some c →
      tryConvert s (.ptrT .channel) str = .ok (.channelV c)) := by
  have hrepr : Nat.repr 0 = "0" := rfl
  constructor
  · intro h hu
    have h0 := scanMentionId_eq_zero _ _ h
    simp [tryConvert, h0, hrepr, hu]
  · intro h hc
    have h0 := scanMentionId_eq_zero _ _ h
    simp [tryConvert, h0, hrepr, hc]

/-- A directory that resolves the identifier `"0"` and also the raw token
`bob`, to different users. -/
def sessZero : Session :=
  { sessNone with
    users := fun i =>
      if i = "0" then some { id := "the-zero-user" }
      else if i = "bob" then some { id := "the-raw-bob" } else none }

/-- Witness for C10: the non-mention token `bob` resolves to the entity the
directory returns for `"0"`, not to the entity named `bob`. -/
theorem c10_zero_id_lookup_witness :
    tryConvert sessZero (.ptrT .user) "bob" =
      .ok (.userV { id := "the-zero-user" }) ∧
    sessZero.users "bob" = some { id := "the-raw-bob" } :=
  ⟨(c10_zero_id_lookup sessZero "bob" { id := "the-zero-user" }
      { id := "" }).1 (by decide) rfl, rfl⟩

/--
Claim C6 (confirmed): integer conversion goes through the json decode into
the reflected target; a token parsing to an in-range integer converts to
exactly that integer, and an out-of-range token yields the wrapped decode
error — never a truncated or wrapped-around value.
-/
theorem c6_integer_conversion (s : Session) (signed : Bool) (w : IntWidth)
    (str : String) (i : Int) (hp : parseJsonInt str = some i) :
    (inIntRange signed w i = true →
      tryConvert s (.intT signed w) str = .ok (.intV i)) ∧
    (inIntRange signed w i = false →
      tryConvert s (.intT signed w) str =
        .error ("json: cannot unmarshal number " ++ str ++
          " into Go value of type " ++ typeName (.intT signed w))) := by
  constructor <;> intro hr <;> simp [tryConvert, hp, hr]

/-- Witness for C6: `300` overflows `int8` and errors; `42` fits and
converts to `42`. -/
theorem c6_integer_conversion_witness :
    parseJsonInt "300" = some 300 ∧
    inIntRange true .w8 300 = false ∧
    tryConvert sessNone (.intT true .w8) "300" =
      .error "json: cannot unmarshal number 300 into Go value of type int8" ∧
    parseJsonInt "42" = some 42 ∧
    inIntRange true .w8 42 = true ∧
    tryConvert sessNone (.intT true .w8) "42" = .ok (.intV 42) :=
  ⟨by decide, by decide,
   (c6_integer_conversion sessNone true .w8 "300" 300 (by decide)).2 (by decide),
   by decide, by decide,
   (c6_integer_conversion sessNone true .w8 "42" 42 (by decide)).1 (by decide)⟩

/--
Counterexample to C2 as stated: on a token failing both phases, the returned
error is the constant message `"tryConvert: cannot parse user"`, which does
not contain the attempted token (`frob`), so the error cannot be said to
name the attempted token.
-/
theorem c2_counterexample :
    tryConvert sessNone (.ptrT .user) "frob" =
      .error "tryConvert: cannot parse user" ∧
    containsSub "tryConvert: cannot parse user".data "frob".data = false :=
  ⟨rfl, by decide⟩

/--
Claim C2 (amended): when both the mention-syntax phase and the raw-token
phase fail for an entity token, conversion returns the `UnmarshalError`
whose constant message names the entity kind (but not the attempted token),
and whenever conversion of an argument fails, `Invoke` returns that error
and the underlying callable is never called.
-/
theorem c2_entity_resolution_failure (s : Session) (str : String)
    (hu1 : s.users (Nat.repr (scanMentionId "<@!" str)) = none)
    (hu2 : s.users str = none)
    (hc1 : s.channels (Nat.repr (scanMentionId "<#" str)) = none)
    (hc2 : s.channels str = none) :
    (tryConvert s (.ptrT .user) str =
        .error "tryConvert: cannot parse user" ∧
      containsSub "tryConvert: cannot parse user".data "user".data = true) ∧
    (tryConvert s (.ptrT .channel) str =
        .error "tryConvert: cannot parse channel" ∧
      containsSub "tryConvert: cannot parse channel".data "channel".data = true) ∧
    (∀ cmd m args msg, invokeBody cmd s m args = .convErr msg →
      Invoke cmd s m args = some (.unmarshal msg) ∧
      InvokeCalled cmd s m args = false) := by
  refine ⟨⟨?_, by decide⟩, ⟨?_, by decide⟩, ?_⟩
  · simp [tryConvert, hu1, hu2]
  · simp [tryConvert, hc1, hc2]
  · intro cmd m args msg h
    constructor <;> simp [Invoke, InvokeCalled, h]

/-- A descriptor declaring exactly one user-reference parameter. -/
def cmdUserArg : FnCmd :=
  { Help := "", fn := fnNoop, paramTypes := [.ptrT .user] }

/-- Witness for the amended C2 on the all-failing directory. -/
theorem c2_entity_resolution_failure_witness :
    tryConvert sessNone (.ptrT .user) "blub" =
      .error "tryConvert: cannot parse user" ∧
    Invoke cmdUserArg sessNone msgA ["blub"] =
      some (.unmarshal "tryConvert: cannot parse user") ∧
    InvokeCalled cmdUserArg sessNone msgA ["blub"] = false :=
  ⟨((c2_entity_resolution_failure sessNone "blub" rfl rfl rfl rfl).1).1,
   ((c2_entity_resolution_failure sessNone "blub" rfl rfl rfl rfl).2.2
      cmdUserArg msgA ["blub"] "tryConvert: cannot parse user" rfl).1,
   ((c2_entity_resolution_failure sessNone "blub" rfl rfl rfl rfl).2.2
      cmdUserArg msgA ["blub"] "tryConvert: cannot parse user" rfl).2⟩

/--
Counterexample to C1 as stated: a descriptor whose single declared parameter
is a trailing sequence (`expected = 1`), invoked with `expected − 1 = 0`
tokens, does *not* pass the arity check: the code requires
`actualLen ≥ expectLen` even for a trailing-sequence receiver, so it returns
`ArgCountMismatch{1, 0}` where the claim promises acceptance.
-/
theorem c1_counterexample :
    cmdTrailSeq.paramTypes.length = 1 ∧
    cmdTrailSeq.paramTypes.getLast? = some (.slice .stringT) ∧
    Invoke cmdTrailSeq sessNone msgA [] = some (.argCountMismatch 1 0) :=
  ⟨rfl, rfl, rfl⟩

theorem invoke_arity_fail (cmd : FnCmd) (s : Session) (m : Message)
    (args : List String) (lastT : GoType)
    (hval : cmd.Predicate.Validate s m = true)
    (hlast : cmd.paramTypes.getLast? = some lastT)
    (hcond : (decide (args.length < cmd.paramTypes.length) ||
      (!lastT.isSlice && decide (args.length > cmd.paramTypes.length))) = true) :
    Invoke cmd s m args =
      some (.argCountMismatch cmd.paramTypes.length args.length) := by
  simp [Invoke, invokeBody, hval, hlast, hcond]

theorem invoke_after_arity (cmd : FnCmd) (s : Session) (m : Message)
    (args : List String) (lastT : GoType)
    (hval : cmd.Predicate.Validate s m = true)
    (hlast : cmd.paramTypes.getLast? = some lastT)
    (hcond : (decide (args.length < cmd.paramTypes.length) ||
      (!lastT.isSlice && decide (args.length > cmd.paramTypes.length))) = false) :
    ∀ e a, Invoke cmd s m args ≠ some (.argCountMismatch e a) := by
  intro e a
  cases hc : convertArgs s cmd.paramTypes args with
  | ok vals =>
    cases hf : cmd.fn vals <;>
      simp [Invoke, invokeBody, hval, hlast, hcond, hc, hf]
  | err msg => simp [Invoke, invokeBody, hval, hlast, hcond, hc]
  | panicked msg => simp [Invoke, invokeBody, hval, hlast, hcond, hc]

/--
Claim C1 (amended): under a passing predicate and a nonempty parameter list,
`Invoke` returns `ArgCountMismatch{expected, actual}` exactly when, for a
trailing-sequence receiver, `actual < expected` (so a token list of length
`expected − 1` is rejected, not accepted as the claim states), and for a
non-sequence signature, `actual ≠ expected`.
-/
theorem c1_arity_check (cmd : FnCmd) (s : Session) (m : Message)
    (args : List String) (lastT : GoType)
    (hval : cmd.Predicate.Validate s m = true)
    (hlast : cmd.paramTypes.getLast? = some lastT) :
    (Invoke cmd s m args =
        some (.argCountMismatch cmd.paramTypes.length args.length) ↔
      (if lastT.isSlice = true then args.length < cmd.paramTypes.length
       else args.length ≠ cmd.paramTypes.length)) := by
  have hiff : ((if lastT.isSlice = true then
        args.length < cmd.paramTypes.length
      else args.length ≠ cmd.paramTypes.length) ↔
      (decide (args.length < cmd.paramTypes.length) ||
        (!lastT.isSlice && decide (args.length > cmd.paramTypes.length))) = true) := by
    cases hs : lastT.isSlice <;> simp [hs]
  constructor
  · intro h
    by_contra hrhs
    rw [hiff] at hrhs
    have hcond : (decide (args.length < cmd.paramTypes.length) ||
        (!lastT.isSlice && decide (args.length > cmd.paramTypes.length))) = false := by
      revert hrhs
      cases (decide (args.length < cmd.paramTypes.length) ||
        (!lastT.isSlice && decide (args.length > cmd.paramTypes.length))) <;> simp
    exact invoke_after_arity cmd s m args lastT hval hlast hcond _ _ h
  · intro h
    rw [hiff] at h
    exact invoke_arity_fail cmd s m args lastT hval hlast h

/-- Witness for the amended C1: one declared string parameter, two tokens,
mismatch reported with the literal counts. -/
theorem c1_arity_check_witness :
    Invoke cmdOneStr sessNone msgA ["a", "b"] =
      some (.argCountMismatch 1 2) :=
  (c1_arity_check cmdOneStr sessNone msgA ["a", "b"] .stringT rfl rfl).mpr
    (by decide)

theorem paramsError_none_iff (ps : List GoType) :
    paramsError ps = none ↔ legalParamsSpec ps = true := by
  induction ps with
  | nil => simp [paramsError, legalParamsSpec]
  | cons p rest ih =>
    cases rest with
    | nil =>
      cases p <;>
        simp [paramsError, legalParamsSpec, GoType.isSlice, GoType.kind,
          illegalKinds]
    | cons q rest' =>
      by_cases hik : illegalKinds p.kind = true
      · simp [paramsError, legalParamsSpec, hik]
      · have hik' : illegalKinds p.kind = false := by
          revert hik; cases illegalKinds p.kind <;> simp
        by_cases hsl : p.isSlice = true
        · simp [paramsError, legalParamsSpec, hik', hsl]
        · have hsl' : p.isSlice = false := by
            revert hsl; cases p.isSlice <;> simp
          have hpe : paramsError (p :: q :: rest') = paramsError (q :: rest') := by
            simp [paramsError, hik', hsl']
          have hls : legalParamsSpec (p :: q :: rest') =
              legalParamsSpec (q :: rest') := by
            simp [legalParamsSpec, hik', hsl']
          rw [hpe, hls]
          exact ih

/--
Claim C3 (amended): for a callable with the two fixed leading parameters,
construction succeeds exactly when every extra parameter's kind is outside
the unsupported set (struct, map, func, interface, uintptr, array, chan,
unsafe-pointer, invalid), a sequence parameter occurs only in final
position, and a final sequence's element *kind* is itself outside that set —
so, contrary to the claim, a sequence-of-sequences element is accepted; on
success the descriptor holds exactly the declared parameter list (and on any
violation only an error is returned, so no partial descriptor exists); a
leading unsupported parameter is reported with an error naming its category
(the same message regardless of position).
-/
theorem c3_signature_validation (fnB : List GoValue → FnOutcome)
    (help : String) (eh : Option String) (rest : List GoType) :
    ((Command fnB (.ptrT .session :: .ptrT .messageCreate :: rest) help eh).isOk
        = true ↔ legalParamsSpec rest = true) ∧
    (∀ cmd,
      Command fnB (.ptrT .session :: .ptrT .messageCreate :: rest) help eh =
        .ok cmd → cmd.paramTypes = rest) ∧
    (∀ p rest₂, rest = p :: rest₂ → illegalKinds p.kind = true →
      Command fnB (.ptrT .session :: .ptrT .messageCreate :: rest) help eh =
        .error ("Command: argument of kind " ++ kindName p.kind ++
          " not supported")) := by
  have hcmd : Command fnB (.ptrT .session :: .ptrT .messageCreate :: rest) help eh =
      (match paramsError rest with
       | some msg => .error msg
       | none => .ok ⟨help, fnB, {}, eh, rest⟩) := by
    simp [Command]
  refine ⟨?_, ?_, ?_⟩
  · rw [hcmd, ← paramsError_none_iff]
    cases hpe : paramsError rest <;> simp [Except.isOk, Except.toBool, hpe]
  · intro cmd hc
    rw [hcmd] at hc
    cases hpe : paramsError rest with
    | none => rw [hpe] at hc; cases hc; rfl
    | some msg => rw [hpe] at hc; cases hc
  · intro p rest₂ hre hik
    rw [hcmd, hre]
    simp [paramsError, hik]

/--
Counterexample to C3 as stated: a trailing sequence whose element type is
itself a sequence (not a supported scalar or entity reference) is accepted
by the validator, and the rejection message for an unsupported kind is the
same constant string whatever the parameter's position, so it names no
position.
-/
theorem c3_counterexample :
    (Command fnNoop
        [.ptrT .session, .ptrT .messageCreate, .slice (.slice .stringT)]
        "help" none).isOk = true ∧
    Command fnNoop [.ptrT .session, .ptrT .messageCreate, .structT]
        "help" none =
      .error "Command: argument of kind struct not supported" ∧
    Command fnNoop [.ptrT .session, .ptrT .messageCreate, .stringT, .structT]
        "help" none =
      .error "Command: argument of kind struct not supported" :=
  ⟨rfl, rfl, rfl⟩

/-- Witness for the amended C3 at concrete signatures. -/
theorem c3_signature_validation_witness :
    (Command fnNoop [.ptrT .session, .ptrT .messageCreate, .boolT]
        "h" none).isOk = true ∧
    Command fnNoop [.ptrT .session, .ptrT .messageCreate, .mapT] "h" none =
      .error "Command: argument of kind map not supported" :=
  ⟨(c3_signature_validation fnNoop "h" none [.boolT]).1.mpr (by decide),
   (c3_signature_validation fnNoop "h" none [.mapT]).2.2 .mapT [] rfl
     (by decide)⟩

/--
Claim C4 (confirmed): with a nonzero permission bitmask, the predicate
allows exactly when (the user owns the guild, or the ordered role scan finds
an intersecting role with every earlier role lookup succeeding and not
intersecting — a lookup failure counting as the check not passing) and a
present custom check does not return true; and on denial `Invoke` returns
`AccessDenied` for *any* token list, with the callable never called and no
conversion attempted.
-/
theorem c4_nonzero_permissions (p : CmdPredicate) (s : Session) (m : Message)
    (hmask : p.Permissions ≠ 0) :
    (p.Validate s m = true ↔
      ((ownerSpec s m.guildId m.authorId ∨
        ∃ mem, effectiveMember s m.guildId m.authorId = some mem ∧
          scanFinds (s.stateRole m.guildId) p.Permissions mem.roles) ∧
       ∀ f, p.Custom = some f → f s m = false)) ∧
    (∀ cmd args, cmd.Predicate = p → p.Validate s m = false →
      Invoke cmd s m args = some .accessDenied ∧
      InvokeCalled cmd s m args = false) := by
  have hb : (p.Permissions != 0) = true := by
    simp [bne_iff_ne, hmask]
  constructor
  · rw [← isOwner_iff, ← memberHasPermissions_iff, ← customDenies_false_iff]
    unfold CmdPredicate.Validate
    rw [hb]
    cases ho : IsOwner s m.guildId m.authorId <;>
      cases hp : MemberHasPermissions s m.guildId m.authorId p.Permissions <;>
        cases hc : customDenies p s m <;>
          simp [ho, hp, hc]
  · intro cmd args hcp hval
    constructor <;> simp [Invoke, InvokeCalled, invokeBody, hcp, hval]

/-- A role whose permissions intersect the mask 8. -/
def roleIntersecting : Role := { Permissions := 8 }

/-- A directory where `alice` is not the owner and holds roles `r1`, `r2`:
the `r1` lookup fails and `r2` (which would intersect) is never examined. -/
def sessPerm : Session :=
  { sessNone with
    guilds := fun g => if g = "g" then some { OwnerID := "the-owner" } else none,
    stateMember := fun g u =>
      if g = "g" ∧ u = "alice" then some { roles := ["r1", "r2"] } else none,
    stateRole := fun g r =>
      if g = "g" ∧ r = "r2" then some roleIntersecting else none }

def predMask8 : CmdPredicate := { Permissions := 8 }

/-- A predicated descriptor used by the C4 witness. -/
def cmdPred8 : FnCmd :=
  { Help := "", fn := fnNoop, Predicate := predMask8, paramTypes := [.stringT] }

/-- Witness for C4: denial on the failed role scan, surfaced as
`AccessDenied` before any call. -/
theorem c4_nonzero_permissions_witness :
    predMask8.Validate sessPerm msgA = false ∧
    Invoke cmdPred8 sessPerm msgA ["x"] = some .accessDenied ∧
    InvokeCalled cmdPred8 sessPerm msgA ["x"] = false :=
  ⟨rfl,
   ((c4_nonzero_permissions predMask8 sessPerm msgA (by decide)).2
      cmdPred8 ["x"] rfl rfl).1,
   ((c4_nonzero_permissions predMask8 sessPerm msgA (by decide)).2
      cmdPred8 ["x"] rfl rfl).2⟩

/--
Claim C9 (confirmed): when predicate, arity and conversion all pass and the
callable returns normally, `Invoke` returns nil whatever values the callable
returned — they are discarded at the `Call` site and, since the dispatcher
only consults handlers on a non-nil error, never routed to any error
handler.
-/
theorem c9_return_values_discarded (cmd : FnCmd) (s : Session) (m : Message)
    (args : List String) (vals rets : List GoValue) (lastT : GoType)
    (reg : CmdRegister) (pfx : String) (regH : Option String)
    (hval : cmd.Predicate.Validate s m = true)
    (hlast : cmd.paramTypes.getLast? = some lastT)
    (harity : (decide (args.length < cmd.paramTypes.length) ||
      (!lastT.isSlice && decide (args.length > cmd.paramTypes.length))) = false)
    (hconv : convertArgs s cmd.paramTypes args = .ok vals)
    (hfn : cmd.fn vals = .returns rets)
    (hself : (m.authorId == s.selfId) = false)
    (hpfx : pfx.data.isPrefixOf m.content.data = true)
    (hget : reg.Get (replaceOnce ((goSplitSpace m.content).headD "") pfx) =
      some cmd)
    (hargs : (goSplitSpace m.content).drop 1 = args) :
    Invoke cmd s m args = none ∧
    Handle reg s m pfx regH = .invoked none none := by
  have hinv : Invoke cmd s m args = none := by
    simp [Invoke, invokeBody, hval, hlast, harity, hconv, hfn]
  refine ⟨hinv, ?_⟩
  simp only [Handle, hself, hpfx, hget, hargs, hinv]
  cases cmd.ErrHandler <;> simp [routeTrace]

/-- A command returning a value, to be discarded by the dispatcher. -/
def cmdGreet : FnCmd :=
  { Help := "", fn := fun _ => .returns [.strV "the-return"],
    paramTypes := [.stringT] }

def regGreet : CmdRegister :=
  { Cmds := fun n => if n = "greet" then some cmdGreet else none,
    Aliases := fun _ => "" }

def sessBot : Session := { sessNone with selfId := "bot" }

def msgGreet : Message :=
  { authorId := "alice", guildId := "g", content := "!greet hi" }

/-- Witness for C9: a full dispatch of `!greet hi` where the body returns a
value; `Invoke` is nil and no handler runs despite one being installed. -/
theorem c9_return_values_discarded_witness :
    Invoke cmdGreet sessBot msgGreet ["hi"] = none ∧
    Handle regGreet sessBot msgGreet "!" (some "registerHandler") =
      .invoked none none :=
  c9_return_values_discarded cmdGreet sessBot msgGreet ["hi"] [.strV "hi"]
    [.strV "the-return"] .stringT regGreet "!" (some "registerHandler")
    rfl rfl (by decide) rfl rfl rfl (by decide) rfl rfl

end Dgutils
